import Mathlib

/-!
Shallow embedding of the report-generation and result-aggregation engine of
the Reporting-Unittest repository (package module
`src/reporting_unittest/reporting_unittest.py`, plus the older generation
`src/reporting_unittest.py` where a claim is about it).

Step records are the tagged union of the `_TestEvent` and `_TestStep`
dataclasses; a `ReportingTestCase` carries the `data` kwargs (modelled as an
association list with string values, mirroring the Python dict of the
`**kwargs`), the integer rollup `status` (0 = FAIL, 1 = PASS, other =
WARNING) and the append-only `steps` list.  File-system effects (screenshot
capture, report writing, zipping) are modelled by the path strings the code
computes and by an abstract file system given as a list of file paths.
-/

namespace ReportingUnittest

/-- Tagged union of the `_TestEvent` and `_TestStep` dataclasses: one
recorded occurrence inside a test case. -/
inductive StepRecord where
  | testEvent (eventDescription : String) (warning : Bool)
      (dataString : Option String) (imagePath : Option String)
      (imageEmbed : Bool)
  | testStep (stepDescription expectedBehavior failureBehavior : String)
      (testStatus : Bool) (dataString : Option String)
      (imagePath : Option String) (imageEmbed : Bool)
deriving DecidableEq

/-- `__post_init__` derived attribute: `statusColor` of a step record. -/
def StepRecord.statusColor : StepRecord → String
  | .testEvent _ w _ _ _ => if w then "yellow" else "antiquewhite"
  | .testStep _ _ _ ts _ _ _ => if ts then "green" else "red"

/-- `__post_init__` derived attribute: `statusString` of a step record. -/
def StepRecord.statusString : StepRecord → String
  | .testEvent _ w _ _ _ => if w then "WARNING" else "DONE"
  | .testStep _ _ _ ts _ _ _ => if ts then "PASS" else "FAIL"

/-- `__post_init__` derived attribute of `_TestStep`: the displayed actual
behavior (expected text when the step passed, failure text otherwise).
Events have no such attribute; the renderer never reads it for them. -/
def StepRecord.actualBehavior : StepRecord → String
  | .testEvent _ _ _ _ _ => ""
  | .testStep _ eb fb ts _ _ _ => if ts then eb else fb

/-- The stored `dataString` field of a step record. -/
def StepRecord.dataString : StepRecord → Option String
  | .testEvent _ _ ds _ _ => ds
  | .testStep _ _ _ _ ds _ _ => ds

/-- The stored `imagePath` field of a step record. -/
def StepRecord.imagePath : StepRecord → Option String
  | .testEvent _ _ _ ip _ => ip
  | .testStep _ _ _ _ _ ip _ => ip

/-- The stored `imageEmbed` field of a step record. -/
def StepRecord.imageEmbed : StepRecord → Bool
  | .testEvent _ _ _ _ ie => ie
  | .testStep _ _ _ _ _ _ ie => ie

/-- The state of a `ReportingTestCase` object: identity, the `**kwargs`
data dict, the rollup status (0 = FAIL, 1 = PASS, other = WARNING) and the
ordered list of recorded step records. -/
structure ReportingTestCase where
  testCaseID : String
  testCaseDescription : String
  data : List (String × String)
  status : Nat
  steps : List StepRecord
deriving DecidableEq

/-- `ReportingTestCase.__init__`: stores the kwargs, sets status to 1
(PASS) and starts with an empty step list. -/
def ReportingTestCase.init (testCaseID testCaseDescription : String)
    (kwargs : List (String × String)) : ReportingTestCase :=
  { testCaseID := testCaseID
    testCaseDescription := testCaseDescription
    data := kwargs
    status := 1
    steps := [] }

/-- The `data` argument of the reporting API: `Union[list, str, None]`. -/
inductive DataArg where
  | noData
  | fieldList (names : List String)
  | literal (s : String)

/-- Python `self.data[k]` for a key known to be present (the callers filter
on presence first); absent keys give `""` in the model. -/
def lookupD (l : List (String × String)) (k : String) : String :=
  match l.lookup k with
  | some v => v
  | none => ""

/-- `ReportingTestCase._makeDataString` of the package module: a field-name
list is filtered to the names present in the case's data and rendered as
`name: 'value'` lines joined by `<br>`; a plain string is returned
verbatim; `None` gives the empty string. -/
def ReportingTestCase.makeDataString (c : ReportingTestCase) :
    DataArg → String
  | .fieldList names =>
      let filteredRows := names.filter
        (fun a => (c.data.map Prod.fst).contains a)
      let rows := filteredRows.map
        (fun k => k ++ ": \x27" ++ lookupD c.data k ++ "\x27")
      String.intercalate "<br>" rows
  | .literal s => s
  | .noData => ""

/-- Decimal digit character, Python style (only called with `d < 10`). -/
def digitChar (d : Nat) : Char :=
  match d with
  | 0 => Char.ofNat 48
  | 1 => Char.ofNat 49
  | 2 => Char.ofNat 50
  | 3 => Char.ofNat 51
  | 4 => Char.ofNat 52
  | 5 => Char.ofNat 53
  | 6 => Char.ofNat 54
  | 7 => Char.ofNat 55
  | 8 => Char.ofNat 56
  | 9 => Char.ofNat 57
  | _ => Char.ofNat 42

/-- The character list of the decimal representation of a natural number,
mirroring Python `str(n)` for nonnegative integers. -/
def natChars (n : Nat) : List Char :=
  if _h : n < 10 then [digitChar n]
  else natChars (n / 10) ++ [digitChar (n % 10)]
termination_by n
decreasing_by exact Nat.div_lt_self (by omega) (by omega)

/-- Python `str(n)` for a natural number. -/
def natStr (n : Nat) : String :=
  ⟨natChars n⟩

/-- `ReportingTestCase._screenshot` of the package module, reduced to the
path it computes and returns: the file goes under the per-case folder
`.screenshots/<testCaseID>` and is named from the running step counter
(`len(self.steps) + 1`, the would-be number of the step being recorded)
followed by `" - "`, the description and `".png"`. -/
def ReportingTestCase.screenshot (c : ReportingTestCase)
    (description : String) : String :=
  ".screenshots" ++ "/" ++ c.testCaseID ++ "/"
    ++ natStr (c.steps.length + 1) ++ " - " ++ description ++ ".png"

/-- `ReportingTestCase.statusColor` (the method on the case). -/
def ReportingTestCase.statusColor (c : ReportingTestCase) : String :=
  if c.status = 0 then "red"
  else if c.status = 1 then "green"
  else "yellow"

/-- `ReportingTestCase.statusString` (the method on the case). -/
def ReportingTestCase.statusString (c : ReportingTestCase) : String :=
  if c.status = 0 then "FAIL"
  else if c.status = 1 then "PASS"
  else "WARNING"

/-- `ReportingTestCase.reportEvent`: optionally captures a screenshot
(`captureElement` says whether an `element` argument was supplied), builds
the data string, appends a `_TestEvent` record, and escalates the status to
2 (WARNING) when the event is a warning and the status is still 1 (PASS). -/
def ReportingTestCase.reportEvent (c : ReportingTestCase)
    (eventDescription : String) (warning : Bool) (data : DataArg)
    (imageEmbed : Bool) (captureElement : Bool) : ReportingTestCase :=
  let imagePath := if captureElement
    then some (c.screenshot eventDescription) else none
  let dataString := c.makeDataString data
  let c' := { c with steps := c.steps ++
    [.testEvent eventDescription warning (some dataString)
      imagePath imageEmbed] }
  if warning && (c.status == 1) then { c' with status := 2 } else c'

/-- `ReportingTestCase.reportStep`: optionally captures a screenshot,
builds the data string, appends a `_TestStep` record, and drops the status
to 0 (FAIL) when the step failed and the status is not already 0. -/
def ReportingTestCase.reportStep (c : ReportingTestCase)
    (stepDescription expectedBehavior failureBehavior : String)
    (testStatus : Bool) (data : DataArg) (imageEmbed : Bool)
    (captureElement : Bool) : ReportingTestCase :=
  let imagePath := if captureElement
    then some (c.screenshot stepDescription) else none
  let dataString := c.makeDataString data
  let c' := { c with steps := c.steps ++
    [.testStep stepDescription expectedBehavior failureBehavior testStatus
      (some dataString) imagePath imageEmbed] }
  if !testStatus && !(c.status == 0) then { c' with status := 0 } else c'

/-- `ReportingTestCase.assertTrue`: records an assertion step whose outcome
is `bool(expr)` via `reportStep`, then delegates to
`unittest.TestCase.assertTrue`, which raises iff `expr` is false.  The
second component is `true` exactly when no exception is raised. -/
def ReportingTestCase.assertTrue (c : ReportingTestCase) (expr : Bool)
    (stepDescription expectedBehavior failureBehavior : String)
    (data : DataArg) (imageEmbed : Bool) (captureElement : Bool) :
    ReportingTestCase × Bool :=
  (c.reportStep stepDescription expectedBehavior failureBehavior expr
    data imageEmbed captureElement, expr)

/-- `ReportingTestCase.assertFalse`: the recorded outcome is
`not bool(expr)`; `unittest.TestCase.assertFalse` raises iff `expr` is
true. -/
def ReportingTestCase.assertFalse (c : ReportingTestCase) (expr : Bool)
    (stepDescription expectedBehavior failureBehavior : String)
    (data : DataArg) (imageEmbed : Bool) (captureElement : Bool) :
    ReportingTestCase × Bool :=
  (c.reportStep stepDescription expectedBehavior failureBehavior (!expr)
    data imageEmbed captureElement, !expr)

/-- `ReportingTestCase.assertEqual`: the recorded outcome is
`first == second`; `unittest.TestCase.assertEqual` raises iff the two
values differ. -/
def ReportingTestCase.assertEqual {α : Type} [DecidableEq α]
    (c : ReportingTestCase) (first second : α)
    (stepDescription expectedBehavior failureBehavior : String)
    (data : DataArg) (imageEmbed : Bool) (captureElement : Bool) :
    ReportingTestCase × Bool :=
  (c.reportStep stepDescription expectedBehavior failureBehavior
    (decide (first = second)) data imageEmbed captureElement,
   decide (first = second))

/-- `ReportingTestCase.assertNotEqual`: the recorded outcome is
`not first == second`; `unittest.TestCase.assertNotEqual` raises iff the
two values are equal. -/
def ReportingTestCase.assertNotEqual {α : Type} [DecidableEq α]
    (c : ReportingTestCase) (first second : α)
    (stepDescription expectedBehavior failureBehavior : String)
    (data : DataArg) (imageEmbed : Bool) (captureElement : Bool) :
    ReportingTestCase × Bool :=
  (c.reportStep stepDescription expectedBehavior failureBehavior
    (!decide (first = second)) data imageEmbed captureElement,
   !decide (first = second))

/-- One call of the case-level reporting API. -/
inductive RCall where
  | event (eventDescription : String) (warning : Bool) (data : DataArg)
      (imageEmbed : Bool) (captureElement : Bool)
  | step (stepDescription expectedBehavior failureBehavior : String)
      (testStatus : Bool) (data : DataArg) (imageEmbed : Bool)
      (captureElement : Bool)

/-- Apply one reporting call to a case. -/
def applyCall (c : ReportingTestCase) : RCall → ReportingTestCase
  | .event ed w data ie ce => c.reportEvent ed w data ie ce
  | .step sd eb fb ts data ie ce => c.reportStep sd eb fb ts data ie ce

/-- Apply a sequence of reporting calls to a case, in order. -/
def runCalls (c : ReportingTestCase) (calls : List RCall) :
    ReportingTestCase :=
  calls.foldl applyCall c

/-- Does a call record a failing assertion step? -/
def RCall.isFailingStep : RCall → Bool
  | .step _ _ _ ts _ _ _ => !ts
  | .event _ _ _ _ _ => false

/-- Does a call record a warning event? -/
def RCall.isWarningEvent : RCall → Bool
  | .event _ w _ _ _ => w
  | .step _ _ _ _ _ _ _ => false

/-- One action of a scripted case body: report an event, or call
`assertTrue` on a condition. -/
inductive ScriptAction where
  | event (eventDescription : String) (warning : Bool)
  | checkTrue (expr : Bool)
      (stepDescription expectedBehavior failureBehavior : String)

/-- Execute a scripted case body: actions run in order, and a raising
assertion (outcome false) aborts the remaining actions, exactly as the
exception of `unittest.TestCase.assertTrue` propagates out of the test
method. -/
def runScript (c : ReportingTestCase) : List ScriptAction →
    ReportingTestCase
  | [] => c
  | .event d w :: rest =>
      runScript (c.reportEvent d w .noData false false) rest
  | .checkTrue e sd eb fb :: rest =>
      let r := c.assertTrue e sd eb fb .noData false false
      if r.2 then runScript r.1 rest else r.1

/-- Severity rank of a rollup status along the precedence
PASS → WARNING → FAIL (status codes: 1 = PASS, 0 = FAIL, other =
WARNING). -/
def statusSev : Nat → Nat
  | 0 => 2
  | 1 => 0
  | _ => 1

/-- Spec-side recursive reading of the data-string contract: walk the
requested field names in order, keep a `name: 'value'` line for each name
whose value exists in the case's configured data, and drop absent names. -/
def specDataLines (c : ReportingTestCase) : List String → List String
  | [] => []
  | k :: ks =>
      match c.data.lookup k with
      | some v => (k ++ ": \x27" ++ v ++ "\x27") :: specDataLines c ks
      | none => specDataLines c ks

/-! Renderer (`ReportingTestSuite.writeReport` of the package module).
Every `outfile.write` becomes a string appended to the document; the
continuation lines of the triple-quoted f-strings carry the exact
indentation they have in the source, reproduced here with `sp`. -/

/-- A run of `n` spaces (the indentation inside multi-line f-strings). -/
def sp (n : Nat) : String :=
  String.mk (List.replicate n ' ')

/-- Python `str` applied to an optional string field: the string itself, or
`"None"` for `None` (as interpolated by the f-strings). -/
def showOpt : Option String → String
  | some s => s
  | none => "None"

/-- The `tableStyleString` local of `writeReport`. -/
def tableStyleString : String :=
  "style=\"width: 1000px;margin: 0;\n" ++ sp 20
    ++ "padding: 0;table-layout: fixed;border-collapse: collapse;\n"
    ++ sp 20 ++ "font: 11px/1.4 Trebuchet MS;\""

/-- The `tableHeaderStyleString` local of `writeReport`. -/
def tableHeaderStyleString : String :=
  "style=\"margin: 0;padding: 0;\""

/-- One dark header cell of the per-case summary table. -/
def caseHeadCell (text : String) (width : Nat) : String :=
  "<th style=\"width: " ++ natStr width ++ "px;margin: 0;padding: 6px;\n"
    ++ sp 24 ++ "background: #333;color: white;font-weight: bold;\n"
    ++ sp 24 ++ "border: 1px solid #ccc;text-align: auto;\">\n"
    ++ sp 24 ++ text ++ "</th>"

/-- One white value cell of the per-case summary table (ID and
description). -/
def caseValueCell (text : String) (width : Nat) : String :=
  "<th style=\"width: " ++ natStr width ++ "px;margin: 0;padding: 6px;\n"
    ++ sp 24 ++ "background: white;color: black;font-weight: bold;\n"
    ++ sp 24 ++ "border: 1px solid #ccc;text-align: auto;\">\n"
    ++ sp 24 ++ text ++ "</th>"

/-- The colored status cell of the per-case summary table. -/
def caseStatusCell (c : ReportingTestCase) : String :=
  "<th style=\"width: 200px;margin: 0;padding: 6px;\n" ++ sp 20
    ++ "background: " ++ c.statusColor ++ ";color: black;\n" ++ sp 20
    ++ "font-weight: bold;border: 1px solid #ccc;\n" ++ sp 20
    ++ "text-align: auto;\">" ++ c.statusString ++ "</th>"

/-- One dark header cell of the step-detail table. -/
def stepsHeadCell (text : String) (width : Nat) : String :=
  "<th style=\"width: " ++ natStr width ++ "px;margin: 0;\n" ++ sp 24
    ++ "padding: 6px;background: #333;color: white;\n" ++ sp 24
    ++ "font-weight: bold;border: 1px solid #ccc;\n" ++ sp 24
    ++ "text-align: auto;\">" ++ text ++ "</th>"

/-- The row opener plus step-number cell of one step row (`{i}` is the
1-based position of the step in append order). -/
def stepNumCell (i : Nat) : String :=
  "<tr><th style=\"width: 50px;margin: 0;padding: 6px;\n" ++ sp 24
    ++ "background: white;color: black;font-weight: bold;\n" ++ sp 24
    ++ "border: 1px solid #ccc;text-align: auto;\">" ++ natStr i
    ++ "</th>"

/-- One white text cell of a step row (description, expected behavior,
actual behavior columns). -/
def stepTextCell (t : String) (w : Nat) : String :=
  "<th style=\"width: " ++ natStr w ++ "px;margin: 0;\n" ++ sp 32
    ++ "padding: 6px;background: white;color: black;\n" ++ sp 32
    ++ "font-weight: bold;border: 1px solid #ccc;\n" ++ sp 32
    ++ "text-align: auto;\">" ++ t ++ "</th>"

/-- The colored status cell of a step row. -/
def stepStatusCell (s : StepRecord) : String :=
  "<th style=\"width: 50px;margin: 0;padding:\n" ++ sp 24
    ++ "6px;background: " ++ s.statusColor ++ ";color: black;\n" ++ sp 24
    ++ "font-weight: bold;border: 1px solid #ccc;\n" ++ sp 24
    ++ "text-align: auto;\">" ++ s.statusString ++ "</th>"

/-- The test-data cell of a step row. -/
def stepDataCell (s : StepRecord) : String :=
  "<th style=\"width: 250px;margin: 0;padding: 6px;\n" ++ sp 24
    ++ "background: white;color: black;\n" ++ sp 24
    ++ "font-weight: bold;border: 1px solid #ccc;\n" ++ sp 24
    ++ "text-align: auto;\">" ++ showOpt s.dataString ++ "</th>"

/-- The screenshot cell of a step row: `N/A` without an image path, an
embedded image when the embed flag is set, a link otherwise. -/
def stepImageCell (s : StepRecord) : String :=
  match s.imagePath with
  | none =>
      "<th style=\"width: 400px;margin: 0;padding: 6px;\n" ++ sp 28
        ++ "background: white;color: black;\n" ++ sp 28
        ++ "font-weight: bold;border: 1px solid #ccc;\n" ++ sp 28
        ++ "text-align: auto;\">N/A</th>"
  | some p =>
      if s.imageEmbed then
        "<th style=\"width: 400px;margin: 0;\n" ++ sp 32
          ++ "padding: 6px;background: white;\n" ++ sp 32
          ++ "color: black;font-weight: bold;\n" ++ sp 32
          ++ "border: 1px solid #ccc;text-align: auto;\n" ++ sp 32
          ++ "\"><image src=\"" ++ p ++ "\">\n" ++ sp 32
          ++ "</image></th>"
      else
        "<th style=\"width: 400px;margin: 0;\n" ++ sp 32
          ++ "padding: 6px;background: white;\n" ++ sp 32
          ++ "color: black;font-weight: bold;\n" ++ sp 32
          ++ "border: 1px solid #ccc;text-align: auto;\n" ++ sp 32
          ++ "\"><a href=\"" ++ p ++ "\n" ++ sp 32
          ++ "\" target=\"_blank\">Link</a></th>"

/-- One full step row: number, then the three text columns (step fields
for a `_TestStep`, event description plus two empty columns for a
`_TestEvent`, with the widths the two isinstance branches use), then the
status, data and screenshot cells. -/
def renderStepRow (i : Nat) (s : StepRecord) : String :=
  stepNumCell i ++
    (match s with
     | .testStep sd eb _ _ _ _ _ =>
         stepTextCell sd 200 ++ stepTextCell eb 300
           ++ stepTextCell s.actualBehavior 300
     | .testEvent ed _ _ _ _ =>
         stepTextCell ed 300 ++ stepTextCell "" 200
           ++ stepTextCell "" 300) ++
    stepStatusCell s ++ stepDataCell s ++ stepImageCell s ++ "</tr>"

/-- The step rows of a case, numbered from `i` (`enumerate(..., start=1)`
gives `i = 1` at the top call). -/
def renderStepRows (i : Nat) : List StepRecord → String
  | [] => ""
  | s :: rest => renderStepRow i s ++ renderStepRows (i + 1) rest

/-- The full block one case contributes to the document: summary table,
then the collapsible step-detail table. -/
def renderCase (c : ReportingTestCase) : String :=
  "<table " ++ tableStyleString ++ ">\n" ++ sp 20
    ++ "<thead " ++ tableHeaderStyleString ++ ">\n" ++ sp 20
    ++ "<tr " ++ tableHeaderStyleString ++ ">"
    ++ caseHeadCell "TCID" 100 ++ caseHeadCell "Description" 700
    ++ caseHeadCell "Status" 200
    ++ "</tr></thead><tbody><tr>"
    ++ caseValueCell c.testCaseID 100
    ++ caseValueCell c.testCaseDescription 700
    ++ caseStatusCell c
    ++ "</tr></tbody></table>"
    ++ "<details><summary>Step Details</summary>\n" ++ sp 20
    ++ "<table " ++ tableStyleString ++ ">\n" ++ sp 20
    ++ "<thead " ++ tableHeaderStyleString ++ ">\n" ++ sp 20
    ++ "<tr " ++ tableHeaderStyleString ++ ">"
    ++ stepsHeadCell "Step #" 50 ++ stepsHeadCell "Description" 200
    ++ stepsHeadCell "Expected Behavior" 300
    ++ stepsHeadCell "Actual Behavior" 300 ++ stepsHeadCell "Status" 50
    ++ stepsHeadCell "Test Data" 250 ++ stepsHeadCell "Screenshot" 400
    ++ "</tr></thead>"
    ++ "<tbody " ++ tableHeaderStyleString ++ ">"
    ++ renderStepRows 1 c.steps
    ++ "</tbody>"
    ++ "</table></details><br><br>"

/-- The blocks of all cases, in the order of the given list. -/
def renderCases : List ReportingTestCase → String
  | [] => ""
  | c :: rest => renderCase c ++ renderCases rest

/-- The whole HTML document for an already-sorted case list:
`<html><body>`, the header with report name, timestamp and tester name,
the case blocks, and the closing tags. -/
def renderDocument (testName testerName timestamp : String)
    (cases : List ReportingTestCase) : String :=
  "<html><body>"
    ++ "<h3>" ++ testName ++ "\n" ++ sp 16 ++ "- run " ++ timestamp
    ++ "\n" ++ sp 16 ++ "by " ++ testerName ++ "</h3>"
    ++ renderCases cases
    ++ "</body></html>"

/-- The comparison `writeReport` sorts by: `key=lambda a: a.testCaseID`
under Python's lexicographic string order. -/
def caseLE (a b : ReportingTestCase) : Prop :=
  a.testCaseID ≤ b.testCaseID

instance : DecidableRel caseLE := fun a b =>
  inferInstanceAs (Decidable (a.testCaseID ≤ b.testCaseID))

instance : IsTotal ReportingTestCase caseLE :=
  ⟨fun a b => le_total a.testCaseID b.testCaseID⟩

instance : IsTrans ReportingTestCase caseLE :=
  ⟨fun _ _ _ hab hbc => le_trans hab hbc⟩

/-- `writeReport`'s case ordering: the three result buckets are chained in
the order successes, failures, errors, and sorted by `testCaseID` with
Python's stable `list.sort`, modelled by stable insertion sort. -/
def sortCases (succs fails errors : List ReportingTestCase) :
    List ReportingTestCase :=
  List.insertionSort caseLE (succs ++ fails ++ errors)

/-- The document `writeReport` produces for a run result, at a given
timestamp (`datetime.now()` is interpolated once, in the header). -/
def writeReportDoc (testName testerName timestamp : String)
    (succs fails errors : List ReportingTestCase) : String :=
  renderDocument testName testerName timestamp
    (sortCases succs fails errors)

/-! Abstract file system for the archiving step of `writeReport`.  A file
system is the list of paths of the files that exist; `os.walk` of a
directory yields exactly the files whose path extends the directory's path
by a separator. -/

/-- Is path `p` a file inside the directory tree rooted at `root`? -/
def isUnder (root p : String) : Bool :=
  List.isPrefixOf (root ++ "/").data p.data

/-- The files `os.walk(root)` visits, in file-system order. -/
def walkFiles (fs : List String) (root : String) : List String :=
  fs.filter (isUnder root)

/-- The paths `writeReport` writes into the zip archive when
`zipReport=True`: every file under the screenshot root, then the rendered
document.  `zf.write(p)` stores the entry under the relative path `p`
itself, so the entry list is the path list. -/
def zipEntries (fs : List String) (screenshotRoot docPath : String) :
    List String :=
  walkFiles fs screenshotRoot ++ [docPath]

/-- The file system after the archiving step: `rmtree` removes the
screenshot tree, then `remove` deletes the loose document. -/
def fsAfterZip (fs : List String) (screenshotRoot docPath : String) :
    List String :=
  (fs.filter (fun p => !(isUnder screenshotRoot p))).filter
    (fun p => !(p == docPath))

/-- `ReportingTestSuite.__init__`: `self.screenshot_path =
pjoin(self.outPath, '.screenshots')`. -/
def suiteScreenshotRoot (outPath : String) : String :=
  outPath ++ "/" ++ ".screenshots"

/-- `writeReport`: `filePath = pjoin(self.outPath, self.testName +
'.html')`. -/
def suiteDocPath (outPath testName : String) : String :=
  outPath ++ "/" ++ (testName ++ ".html")

/-! The older generation of the module (`src/reporting_unittest.py`).  Its
`_screenshot` has no step counter in the file name, its `_makeDataString`
joins with a newline, and its assertion wrappers forward the keyword
argument `elementIDs` to `reportStep`, whose parameter is named `element`.
-/

/-- `_screenshot` of the old module: the file name is only the description
plus `.png`. -/
def ReportingTestCase.oldScreenshot (c : ReportingTestCase)
    (description : String) : String :=
  ".screenshots" ++ "/" ++ c.testCaseID ++ "/" ++ description ++ ".png"

/-- `_makeDataString` of the old module: same as the package module but
joined with `"\n"`. -/
def ReportingTestCase.oldMakeDataString (c : ReportingTestCase) :
    DataArg → String
  | .fieldList names =>
      let filteredRows := names.filter
        (fun a => (c.data.map Prod.fst).contains a)
      let rows := filteredRows.map
        (fun k => k ++ ": \x27" ++ lookupD c.data k ++ "\x27")
      String.intercalate "\n" rows
  | .literal s => s
  | .noData => ""

/-- `reportStep` of the old module. -/
def ReportingTestCase.oldReportStep (c : ReportingTestCase)
    (stepDescription expectedBehavior failureBehavior : String)
    (testStatus : Bool) (data : DataArg) (imageEmbed : Bool)
    (captureElement : Bool) : ReportingTestCase :=
  let imagePath := if captureElement
    then some (c.oldScreenshot stepDescription) else none
  let dataString := c.oldMakeDataString data
  let c' := { c with steps := c.steps ++
    [.testStep stepDescription expectedBehavior failureBehavior testStatus
      (some dataString) imagePath imageEmbed] }
  if !testStatus && !(c.status == 0) then { c' with status := 0 } else c'

/-- The parameter names of the old module's `reportStep` (after `self`). -/
def oldReportStepParams : List String :=
  ["stepDescription", "expectedBehavior", "failureBehavior", "testStatus",
   "data", "imageEmbed", "element"]

/-- The keyword names every assertion wrapper of the old module passes in
its `reportStep(...)` call. -/
def oldAssertKeywords : List String :=
  ["stepDescription", "expectedBehavior", "failureBehavior", "testStatus",
   "data", "imageEmbed", "elementIDs"]

/-- Python call binding for keyword arguments: the call is accepted only
when every keyword names a parameter; otherwise the interpreter raises
`TypeError` before the callee's body runs. -/
def kwargsAccepted (params keywords : List String) : Bool :=
  keywords.all (fun k => params.contains k)

/-- `assertTrue` of the old module: the `reportStep` call is attempted
with the keywords of `oldAssertKeywords`; if the binding is rejected the
call raises `TypeError` with the case untouched. -/
def ReportingTestCase.oldAssertTrue (c : ReportingTestCase) (expr : Bool)
    (stepDescription expectedBehavior failureBehavior : String)
    (data : DataArg) (imageEmbed : Bool) (captureElement : Bool) :
    ReportingTestCase × Option String :=
  if kwargsAccepted oldReportStepParams oldAssertKeywords then
    (c.oldReportStep stepDescription expectedBehavior failureBehavior
      expr data imageEmbed captureElement, none)
  else (c, some "TypeError")

/-- `assertFalse` of the old module (outcome `not bool(expr)`). -/
def ReportingTestCase.oldAssertFalse (c : ReportingTestCase) (expr : Bool)
    (stepDescription expectedBehavior failureBehavior : String)
    (data : DataArg) (imageEmbed : Bool) (captureElement : Bool) :
    ReportingTestCase × Option String :=
  if kwargsAccepted oldReportStepParams oldAssertKeywords then
    (c.oldReportStep stepDescription expectedBehavior failureBehavior
      (!expr) data imageEmbed captureElement, none)
  else (c, some "TypeError")

/-- `assertEqual` of the old module (outcome `first == second`). -/
def ReportingTestCase.oldAssertEqual {α : Type} [DecidableEq α]
    (c : ReportingTestCase) (first second : α)
    (stepDescription expectedBehavior failureBehavior : String)
    (data : DataArg) (imageEmbed : Bool) (captureElement : Bool) :
    ReportingTestCase × Option String :=
  if kwargsAccepted oldReportStepParams oldAssertKeywords then
    (c.oldReportStep stepDescription expectedBehavior failureBehavior
      (decide (first = second)) data imageEmbed captureElement, none)
  else (c, some "TypeError")

/-- `assertNotEqual` of the old module (outcome `not first == second`). -/
def ReportingTestCase.oldAssertNotEqual {α : Type} [DecidableEq α]
    (c : ReportingTestCase) (first second : α)
    (stepDescription expectedBehavior failureBehavior : String)
    (data : DataArg) (imageEmbed : Bool) (captureElement : Bool) :
    ReportingTestCase × Option String :=
  if kwargsAccepted oldReportStepParams oldAssertKeywords then
    (c.oldReportStep stepDescription expectedBehavior failureBehavior
      (!decide (first = second)) data imageEmbed captureElement, none)
  else (c, some "TypeError")

/-! Basic facts about the case operations, shared by the claim theorems. -/

theorem status_init (id d : String) (kw : List (String × String)) :
    (ReportingTestCase.init id d kw).status = 1 :=
  rfl

theorem steps_init (id d : String) (kw : List (String × String)) :
    (ReportingTestCase.init id d kw).steps = [] :=
  rfl

theorem reportEvent_status (c : ReportingTestCase) (ed : String)
    (w : Bool) (d : DataArg) (ie ce : Bool) :
    (c.reportEvent ed w d ie ce).status =
      if w && (c.status == 1) then 2 else c.status := by
  simp only [ReportingTestCase.reportEvent]
  split <;> rfl

theorem reportEvent_steps (c : ReportingTestCase) (ed : String)
    (w : Bool) (d : DataArg) (ie ce : Bool) :
    (c.reportEvent ed w d ie ce).steps = c.steps ++
      [.testEvent ed w (some (c.makeDataString d))
        (if ce then some (c.screenshot ed) else none) ie] := by
  simp only [ReportingTestCase.reportEvent]
  split <;> rfl

theorem reportEvent_id (c : ReportingTestCase) (ed : String) (w : Bool)
    (d : DataArg) (ie ce : Bool) :
    (c.reportEvent ed w d ie ce).testCaseID = c.testCaseID := by
  simp only [ReportingTestCase.reportEvent]
  split <;> rfl

theorem reportStep_status (c : ReportingTestCase)
    (sd eb fb : String) (ts : Bool) (d : DataArg) (ie ce : Bool) :
    (c.reportStep sd eb fb ts d ie ce).status =
      if !ts && !(c.status == 0) then 0 else c.status := by
  simp only [ReportingTestCase.reportStep]
  split <;> rfl

theorem reportStep_steps (c : ReportingTestCase)
    (sd eb fb : String) (ts : Bool) (d : DataArg) (ie ce : Bool) :
    (c.reportStep sd eb fb ts d ie ce).steps = c.steps ++
      [.testStep sd eb fb ts (some (c.makeDataString d))
        (if ce then some (c.screenshot sd) else none) ie] := by
  simp only [ReportingTestCase.reportStep]
  split <;> rfl

theorem reportStep_id (c : ReportingTestCase)
    (sd eb fb : String) (ts : Bool) (d : DataArg) (ie ce : Bool) :
    (c.reportStep sd eb fb ts d ie ce).testCaseID = c.testCaseID := by
  simp only [ReportingTestCase.reportStep]
  split <;> rfl

theorem reportStep_false_status (c : ReportingTestCase)
    (sd eb fb : String) (d : DataArg) (ie ce : Bool) :
    (c.reportStep sd eb fb false d ie ce).status = 0 := by
  rw [reportStep_status]
  by_cases h : c.status = 0 <;> simp [h]

theorem statusSev_le_two (s : Nat) : statusSev s ≤ 2 := by
  unfold statusSev
  split <;> omega

/-- The rollup status after a call sequence, from an arbitrary starting
status: a failing step forces 0; otherwise a warning event matters only
when the starting status is 1. -/
theorem status_runCalls (calls : List RCall) (c : ReportingTestCase) :
    (runCalls c calls).status =
      if calls.any RCall.isFailingStep then 0
      else if c.status = 1 ∧ calls.any RCall.isWarningEvent then 2
      else c.status := by
  induction calls generalizing c with
  | nil => simp [runCalls]
  | cons a rest ih =>
    have hr : runCalls c (a :: rest) = runCalls (applyCall c a) rest := rfl
    rw [hr, ih]
    cases a with
    | event ed w d ie ce =>
      simp only [applyCall, List.any_cons, RCall.isFailingStep,
        RCall.isWarningEvent, reportEvent_status, Bool.false_or]
      by_cases hw : w <;> by_cases h1 : c.status = 1 <;>
        simp [hw, h1] <;> omega
    | step sd eb fb ts d ie ce =>
      simp only [applyCall, List.any_cons, RCall.isFailingStep,
        RCall.isWarningEvent, reportStep_status, Bool.false_or]
      by_cases ht : ts <;> by_cases h0 : c.status = 0 <;>
        simp [ht, h0] <;> omega

/-- C1: for every test case and every sequence of `reportEvent` /
`reportStep` calls, the rollup status starts at PASS (`__init__` sets 1)
and moves only monotonically along PASS → WARNING → FAIL: a failing step
sets status FAIL (0) from any prior status; once the status is 0 no
subsequent call changes it; a warning event escalates only when the
current status is 1 (PASS); and the severity rank `statusSev` never
decreases under any call or call sequence. -/
theorem rollup_status_monotonic :
    (∀ id d kw, (ReportingTestCase.init id d kw).statusString = "PASS")
    ∧ (∀ (c : ReportingTestCase) sd eb fb data ie ce,
        (c.reportStep sd eb fb false data ie ce).status = 0)
    ∧ (∀ (c : ReportingTestCase) call, c.status = 0 →
        (applyCall c call).status = 0)
    ∧ (∀ (c : ReportingTestCase) ed data ie ce, c.status ≠ 1 →
        (c.reportEvent ed true data ie ce).status = c.status)
    ∧ (∀ (c : ReportingTestCase) call,
        statusSev c.status ≤ statusSev (applyCall c call).status)
    ∧ (∀ (c : ReportingTestCase) calls,
        statusSev c.status ≤ statusSev (runCalls c calls).status) := by
  have hstep : ∀ (c : ReportingTestCase) call,
      statusSev c.status ≤ statusSev (applyCall c call).status := by
    intro c call
    cases call with
    | event ed w d ie ce =>
      simp only [applyCall, reportEvent_status]
      by_cases hw : w <;> by_cases h1 : c.status = 1 <;>
        simp [hw, h1, statusSev] <;> exact statusSev_le_two _
    | step sd eb fb ts d ie ce =>
      simp only [applyCall, reportStep_status]
      by_cases ht : ts <;> by_cases h0 : c.status = 0 <;>
        simp [ht, h0, statusSev] <;> exact statusSev_le_two _
  refine ⟨fun id d kw => rfl,
    fun c sd eb fb data ie ce => reportStep_false_status c sd eb fb data ie ce,
    ?_, ?_, hstep, ?_⟩
  · intro c call h0
    cases call with
    | event ed w d ie ce =>
      simp [applyCall, reportEvent_status, h0]
    | step sd eb fb ts d ie ce =>
      simp [applyCall, reportStep_status, h0]
  · intro c ed data ie ce h1
    simp [reportEvent_status, h1]
  · intro c calls
    induction calls generalizing c with
    | nil => simp [runCalls]
    | cons a rest ih =>
      have hr : runCalls c (a :: rest) = runCalls (applyCall c a) rest :=
        rfl
      rw [hr]
      exact le_trans (hstep c a) (ih (applyCall c a))

/-- Witness for C1: the hypotheses are discharged on concrete cases
(status already FAIL, and status WARNING for the escalation-only-from-PASS
conjunct). -/
theorem rollup_status_monotonic_witness :
    (applyCall ⟨"TC", "d", [], 0, []⟩
      (.event "e" true .noData false false)).status = 0
    ∧ (ReportingTestCase.reportEvent ⟨"TC", "d", [], 2, []⟩
        "e" true .noData false false).status = 2 :=
  ⟨rollup_status_monotonic.2.2.1 ⟨"TC", "d", [], 0, []⟩
      (.event "e" true .noData false false) rfl,
   rollup_status_monotonic.2.2.2.1 ⟨"TC", "d", [], 2, []⟩
      "e" .noData false false (by decide)⟩

/-- C2: after any interleaved sequence of `reportEvent` and `reportStep`
calls on a fresh case, the final status is determined by the multiset of
outcomes alone: FAIL if some step had `testStatus=false`, otherwise
WARNING if some event had `warning=true`, otherwise PASS (also for the
empty sequence). -/
theorem rollup_status_characterization (id d : String)
    (kw : List (String × String)) (calls : List RCall) :
    (runCalls (ReportingTestCase.init id d kw) calls).statusString =
      if calls.any RCall.isFailingStep then "FAIL"
      else if calls.any RCall.isWarningEvent then "WARNING"
      else "PASS" := by
  have h := status_runCalls calls (ReportingTestCase.init id d kw)
  rw [status_init] at h
  by_cases hf : calls.any RCall.isFailingStep <;>
    by_cases hw : calls.any RCall.isWarningEvent <;>
      simp [ReportingTestCase.statusString, h, hf, hw]

/-- C3: each of the four assertion wrappers first appends exactly one
assertion step whose recorded outcome is the named predicate (`bool(expr)`,
`not bool(expr)`, `first == second`, `not first == second`), and raises
(second component `false`) precisely when that outcome is false; hence in
the scripted case `[event, assertTrue(false), event]` the second event is
never recorded: exactly two step records exist and the status is FAIL. -/
theorem assertion_records_then_raises :
    (∀ (c : ReportingTestCase) e sd eb fb data ie ce,
       (c.assertTrue e sd eb fb data ie ce).1.steps = c.steps ++
         [.testStep sd eb fb e (some (c.makeDataString data))
           (if ce then some (c.screenshot sd) else none) ie]
       ∧ ((c.assertTrue e sd eb fb data ie ce).2 = false ↔ e = false))
    ∧ (∀ (c : ReportingTestCase) e sd eb fb data ie ce,
       (c.assertFalse e sd eb fb data ie ce).1.steps = c.steps ++
         [.testStep sd eb fb (!e) (some (c.makeDataString data))
           (if ce then some (c.screenshot sd) else none) ie]
       ∧ ((c.assertFalse e sd eb fb data ie ce).2 = false ↔ (!e) = false))
    ∧ (∀ (α : Type) (inst : DecidableEq α) (c : ReportingTestCase)
         (first second : α) sd eb fb data ie ce,
       (c.assertEqual first second sd eb fb data ie ce).1.steps =
         c.steps ++
         [.testStep sd eb fb (decide (first = second))
           (some (c.makeDataString data))
           (if ce then some (c.screenshot sd) else none) ie]
       ∧ ((c.assertEqual first second sd eb fb data ie ce).2 = false ↔
           ¬ first = second))
    ∧ (∀ (α : Type) (inst : DecidableEq α) (c : ReportingTestCase)
         (first second : α) sd eb fb data ie ce,
       (c.assertNotEqual first second sd eb fb data ie ce).1.steps =
         c.steps ++
         [.testStep sd eb fb (!decide (first = second))
           (some (c.makeDataString data))
           (if ce then some (c.screenshot sd) else none) ie]
       ∧ ((c.assertNotEqual first second sd eb fb data ie ce).2 = false ↔
           first = second))
    ∧ (∀ id d kw d1 w1 sd eb fb d2 w2,
       (runScript (ReportingTestCase.init id d kw)
         [.event d1 w1, .checkTrue false sd eb fb,
          .event d2 w2]).steps.length = 2
       ∧ (runScript (ReportingTestCase.init id d kw)
         [.event d1 w1, .checkTrue false sd eb fb,
          .event d2 w2]).statusString = "FAIL") := by
  refine ⟨?_, ?_, ?_, ?_, ?_⟩
  · intro c e sd eb fb data ie ce
    exact ⟨reportStep_steps c sd eb fb e data ie ce,
      by cases e <;> simp [ReportingTestCase.assertTrue]⟩
  · intro c e sd eb fb data ie ce
    exact ⟨reportStep_steps c sd eb fb (!e) data ie ce,
      by cases e <;> simp [ReportingTestCase.assertFalse]⟩
  · intro α inst c first second sd eb fb data ie ce
    exact ⟨reportStep_steps c sd eb fb (decide (first = second)) data ie ce,
      by by_cases h : first = second <;>
        simp [ReportingTestCase.assertEqual, h]⟩
  · intro α inst c first second sd eb fb data ie ce
    exact ⟨reportStep_steps c sd eb fb (!decide (first = second))
        data ie ce,
      by by_cases h : first = second <;>
        simp [ReportingTestCase.assertNotEqual, h]⟩
  · intro id d kw d1 w1 sd eb fb d2 w2
    have hrun : runScript (ReportingTestCase.init id d kw)
        [.event d1 w1, .checkTrue false sd eb fb, .event d2 w2] =
        ((ReportingTestCase.init id d kw).reportEvent d1 w1 .noData
          false false).reportStep sd eb fb false .noData false false := by
      simp [runScript, ReportingTestCase.assertTrue]
    rw [hrun]
    constructor
    · rw [reportStep_steps, reportEvent_steps, steps_init]
      simp
    · simp [ReportingTestCase.statusString, reportStep_false_status]

/-- C4: in the older generation of the module every assertion wrapper
forwards the keyword `elementIDs` to `reportStep`, whose parameter is named
`element`; the keyword binding is rejected, so the call raises `TypeError`
whatever the assertion outcome, before any step record is appended: the
returned case is the input case unchanged. -/
theorem old_assertions_typeerror :
    (∀ (c : ReportingTestCase) e sd eb fb data ie ce,
        c.oldAssertTrue e sd eb fb data ie ce = (c, some "TypeError"))
    ∧ (∀ (c : ReportingTestCase) e sd eb fb data ie ce,
        c.oldAssertFalse e sd eb fb data ie ce = (c, some "TypeError"))
    ∧ (∀ (α : Type) (inst : DecidableEq α) (c : ReportingTestCase)
         (first second : α) sd eb fb data ie ce,
        c.oldAssertEqual first second sd eb fb data ie ce =
          (c, some "TypeError"))
    ∧ (∀ (α : Type) (inst : DecidableEq α) (c : ReportingTestCase)
         (first second : α) sd eb fb data ie ce,
        c.oldAssertNotEqual first second sd eb fb data ie ce =
          (c, some "TypeError")) := by
  have hk : kwargsAccepted oldReportStepParams oldAssertKeywords = false :=
    by decide
  refine ⟨?_, ?_, ?_, ?_⟩
  · intro c e sd eb fb data ie ce
    simp [ReportingTestCase.oldAssertTrue, hk]
  · intro c e sd eb fb data ie ce
    simp [ReportingTestCase.oldAssertFalse, hk]
  · intro α inst c first second sd eb fb data ie ce
    simp [ReportingTestCase.oldAssertEqual, hk]
  · intro α inst c first second sd eb fb data ie ce
    simp [ReportingTestCase.oldAssertNotEqual, hk]

theorem contains_keys_eq_lookup_isSome (l : List (String × String))
    (k : String) :
    (l.map Prod.fst).contains k = (l.lookup k).isSome := by
  induction l with
  | nil => rfl
  | cons p rest ih =>
    obtain ⟨a, b⟩ := p
    cases h : k == a with
    | false =>
      simp only [List.lookup, List.map_cons, List.contains_cons, h,
        Bool.false_or]
      exact ih
    | true =>
      simp only [List.lookup, List.map_cons, List.contains_cons, h,
        Bool.true_or]
      rfl

theorem dataLines_eq_specDataLines (c : ReportingTestCase) :
    ∀ names : List String,
      (names.filter (fun a => (c.data.map Prod.fst).contains a)).map
        (fun k => k ++ ": \x27" ++ lookupD c.data k ++ "\x27") =
      specDataLines c names := by
  intro names
  induction names with
  | nil => rfl
  | cons k ks ih =>
    rw [List.filter_cons]
    rcases hv : c.data.lookup k with _ | v
    · have hc : ((c.data.map Prod.fst).contains k) = false := by
        rw [contains_keys_eq_lookup_isSome, hv]; rfl
      simp only [hc, specDataLines, hv, Bool.false_eq_true, if_false, ih]
    · have hc : ((c.data.map Prod.fst).contains k) = true := by
        rw [contains_keys_eq_lookup_isSome, hv]; rfl
      have hl : lookupD c.data k = v := by
        simp [lookupD, hv]
      simp only [hc, if_true, List.map_cons, ih, specDataLines, hv, hl]

/-- C6: `_makeDataString` renders, for a field-name list, exactly one
`name: 'value'` line per requested name present in the case's data, in
request order, joined by the `<br>` line separator and omitting absent
names (equivalence with the spec-side `specDataLines` reading); a plain
string argument is returned verbatim; an absent argument gives the empty
string; and on case data `{a: 1, b: 2}` with request `["a", "c"]` the
output is only the `a` line. -/
theorem make_data_string_contract :
    (∀ (c : ReportingTestCase) names,
        c.makeDataString (.fieldList names) =
          String.intercalate "<br>" (specDataLines c names))
    ∧ (∀ (c : ReportingTestCase) s, c.makeDataString (.literal s) = s)
    ∧ (∀ c : ReportingTestCase, c.makeDataString .noData = "")
    ∧ ((ReportingTestCase.init "TC" "d"
          [("a", "1"), ("b", "2")]).makeDataString
        (.fieldList ["a", "c"]) = "a: \x271\x27") := by
  refine ⟨?_, fun c s => rfl, fun c => rfl, by decide⟩
  intro c names
  show String.intercalate "<br>" _ = _
  rw [dataLines_eq_specDataLines]

theorem filter_orderedInsert (k : String) (a : ReportingTestCase) :
    ∀ l : List ReportingTestCase,
      (List.orderedInsert caseLE a l).filter
          (fun c => c.testCaseID == k) =
        if a.testCaseID == k then
          a :: l.filter (fun c => c.testCaseID == k)
        else l.filter (fun c => c.testCaseID == k) := by
  intro l
  induction l with
  | nil =>
    simp only [List.orderedInsert, List.filter]
    by_cases hpa : a.testCaseID == k <;> simp [hpa]
  | cons b bs ih =>
    simp only [List.orderedInsert]
    by_cases hab : caseLE a b
    · rw [if_pos hab]
      by_cases hpa : a.testCaseID == k <;>
        simp [List.filter_cons, hpa]
    · rw [if_neg hab]
      by_cases hpa : a.testCaseID == k
      · have hpb : (b.testCaseID == k) = false := by
          rcases hb : b.testCaseID == k with _ | _
          · rfl
          · exfalso
            apply hab
            show a.testCaseID ≤ b.testCaseID
            rw [eq_of_beq hpa, eq_of_beq hb]
        simp [List.filter_cons, hpa, hpb, ih]
      · by_cases hpb : b.testCaseID == k <;>
          simp [List.filter_cons, hpa, hpb, ih]

theorem filter_insertionSort (k : String) :
    ∀ l : List ReportingTestCase,
      (List.insertionSort caseLE l).filter (fun c => c.testCaseID == k) =
        l.filter (fun c => c.testCaseID == k) := by
  intro l
  induction l with
  | nil => rfl
  | cons a as ih =>
    simp only [List.insertionSort]
    rw [filter_orderedInsert, ih, List.filter_cons]

/-- C5: the rendered document orders cases by a stable sort on
`testCaseID` under the lexicographic string order, over the concatenation
of the result buckets in the order successes, failures, errors: the sorted
list is ordered by `caseLE` and is a permutation of the concatenation,
cases with equal IDs keep their bucket/input order (the filter at any
fixed ID is unchanged), the document renders exactly this sorted sequence,
and the IDs `TC001`, `TC010`, `TC002` come out as `TC001`, `TC002`,
`TC010`. -/
theorem report_case_ordering :
    (∀ succs fails errors,
        List.Sorted caseLE (sortCases succs fails errors))
    ∧ (∀ succs fails errors,
        (sortCases succs fails errors).Perm (succs ++ fails ++ errors))
    ∧ (∀ succs fails errors k,
        (sortCases succs fails errors).filter
            (fun c => c.testCaseID == k) =
          (succs ++ fails ++ errors).filter (fun c => c.testCaseID == k))
    ∧ (∀ tn tr ts succs fails errors,
        writeReportDoc tn tr ts succs fails errors =
          renderDocument tn tr ts (sortCases succs fails errors))
    ∧ ((sortCases
          [ReportingTestCase.init "TC001" "" [],
           ReportingTestCase.init "TC010" "" []]
          [ReportingTestCase.init "TC002" "" []] []).map
        ReportingTestCase.testCaseID = ["TC001", "TC002", "TC010"]) := by
  refine ⟨fun succs fails errors =>
      List.sorted_insertionSort caseLE (succs ++ fails ++ errors),
    fun succs fails errors =>
      List.perm_insertionSort caseLE (succs ++ fails ++ errors),
    fun succs fails errors k =>
      filter_insertionSort k (succs ++ fails ++ errors),
    fun tn tr ts succs fails errors => rfl, ?_⟩
  have h12 : caseLE (ReportingTestCase.init "TC001" "" [])
      (ReportingTestCase.init "TC002" "" []) :=
    String.le_iff_toList_le.mpr (by decide)
  have hn : ¬ caseLE (ReportingTestCase.init "TC010" "" [])
      (ReportingTestCase.init "TC002" "" []) := by
    intro h
    exact absurd (String.le_iff_toList_le.mp h) (by decide)
  have e2 : List.orderedInsert caseLE
      (ReportingTestCase.init "TC002" "" []) [] =
      [ReportingTestCase.init "TC002" "" []] := rfl
  have e10 : List.orderedInsert caseLE
      (ReportingTestCase.init "TC010" "" [])
      [ReportingTestCase.init "TC002" "" []] =
      [ReportingTestCase.init "TC002" "" [],
       ReportingTestCase.init "TC010" "" []] := by
    simp only [List.orderedInsert]
    rw [if_neg hn]
  have e1 : List.orderedInsert caseLE
      (ReportingTestCase.init "TC001" "" [])
      [ReportingTestCase.init "TC002" "" [],
       ReportingTestCase.init "TC010" "" []] =
      [ReportingTestCase.init "TC001" "" [],
       ReportingTestCase.init "TC002" "" [],
       ReportingTestCase.init "TC010" "" []] := by
    simp only [List.orderedInsert]
    rw [if_pos h12]
  show (List.insertionSort caseLE
      [ReportingTestCase.init "TC001" "" [],
       ReportingTestCase.init "TC010" "" [],
       ReportingTestCase.init "TC002" "" []]).map
      ReportingTestCase.testCaseID = _
  simp only [List.insertionSort]
  rw [e2, e10, e1]
  rfl

/-- C9: the renderer is a pure function of the case data, the metadata and
the timestamp, and the timestamp is interpolated exactly once, in the
header: for fixed cases and metadata there are strings `pre` and `post`,
independent of the timestamp, with `document = pre ++ timestamp ++ post`.
Hence with a fixed timestamp two renderings are byte-identical, and with
two different timestamps the outputs differ only in that one field. -/
theorem render_timestamp_determinism (tn tr : String)
    (succs fails errors : List ReportingTestCase) :
    ∃ pre post : String, ∀ ts,
      writeReportDoc tn tr ts succs fails errors = pre ++ ts ++ post := by
  refine ⟨"<html><body>" ++ "<h3>" ++ tn ++ "\n" ++ sp 16 ++ "- run ",
    "\n" ++ sp 16 ++ "by " ++ tr ++ "</h3>"
      ++ renderCases (sortCases succs fails errors)
      ++ "</body></html>", ?_⟩
  intro ts
  simp only [writeReportDoc, renderDocument, String.append_assoc]

/-! Injectivity of the decimal step counter in screenshot file names. -/

theorem digitChar_ne_space (d : Nat) : digitChar d ≠ ' ' := by
  unfold digitChar
  split <;> decide

theorem digitChar_injOn (d₁ d₂ : Nat) (h₁ : d₁ < 10) (h₂ : d₂ < 10)
    (h : digitChar d₁ = digitChar d₂) : d₁ = d₂ := by
  interval_cases d₁ <;> interval_cases d₂ <;> revert h <;> decide

theorem natChars_ne_nil (n : Nat) : natChars n ≠ [] := by
  rw [natChars]
  split <;> simp

theorem mem_natChars_ne_space (n : Nat) : ∀ c ∈ natChars n, c ≠ ' ' := by
  induction n using Nat.strong_induction_on with
  | _ n ih =>
    rw [natChars]
    split
    · intro c hc
      rw [List.mem_singleton] at hc
      subst hc
      exact digitChar_ne_space _
    · next h =>
      intro c hc
      rcases List.mem_append.mp hc with h' | h'
      · exact ih (n / 10) (Nat.div_lt_self (by omega) (by omega)) c h'
      · rw [List.mem_singleton] at h'
        subst h'
        exact digitChar_ne_space _

theorem natChars_inj : ∀ m n, natChars m = natChars n → m = n := by
  intro m
  induction m using Nat.strong_induction_on with
  | _ m ih =>
    intro n h
    rw [natChars.eq_def m, natChars.eq_def n] at h
    by_cases hm : m < 10 <;> by_cases hn : n < 10
    · rw [dif_pos hm, dif_pos hn] at h
      exact digitChar_injOn m n hm hn (List.cons.inj h).1
    · rw [dif_pos hm, dif_neg hn] at h
      have hlen := congrArg List.length h
      simp only [List.length_singleton, List.length_append] at hlen
      have h0 : natChars (n / 10) = [] :=
        List.eq_nil_of_length_eq_zero (by omega)
      exact absurd h0 (natChars_ne_nil _)
    · rw [dif_neg hm, dif_pos hn] at h
      have hlen := congrArg List.length h
      simp only [List.length_singleton, List.length_append] at hlen
      have h0 : natChars (m / 10) = [] :=
        List.eq_nil_of_length_eq_zero (by omega)
      exact absurd h0 (natChars_ne_nil _)
    · rw [dif_neg hm, dif_neg hn] at h
      obtain ⟨h1, h2⟩ := List.append_inj' h rfl
      have hd : m / 10 = n / 10 :=
        ih (m / 10) (Nat.div_lt_self (by omega) (by omega)) (n / 10) h1
      have hm10 : m % 10 = n % 10 :=
        digitChar_injOn _ _ (Nat.mod_lt _ (by omega))
          (Nat.mod_lt _ (by omega)) (List.cons.inj h2).1
      omega

theorem append_space_inj : ∀ (l₁ l₂ r₁ r₂ : List Char),
    (∀ c ∈ l₁, c ≠ ' ') → (∀ c ∈ l₂, c ≠ ' ') →
    l₁ ++ ' ' :: r₁ = l₂ ++ ' ' :: r₂ → l₁ = l₂ ∧ r₁ = r₂ := by
  intro l₁
  induction l₁ with
  | nil =>
    intro l₂ r₁ r₂ _ h₂ h
    cases l₂ with
    | nil => simpa using h
    | cons b bs =>
      exfalso
      have hb := (List.cons.inj h).1
      exact h₂ b (List.mem_cons_self b bs) hb.symm
  | cons a as ih =>
    intro l₂ r₁ r₂ h₁ h₂ h
    cases l₂ with
    | nil =>
      exfalso
      have ha := (List.cons.inj h).1
      exact h₁ a (List.mem_cons_self a as) ha
    | cons b bs =>
      obtain ⟨hab, htail⟩ := List.cons.inj h
      obtain ⟨hl, hr⟩ := ih bs r₁ r₂
        (fun c hc => h₁ c (List.mem_cons_of_mem a hc))
        (fun c hc => h₂ c (List.mem_cons_of_mem b hc)) htail
      exact ⟨by rw [hab, hl], hr⟩

theorem screenshotName_inj (id : String) (n₁ n₂ : Nat) (d₁ d₂ : String)
    (hne : n₁ ≠ n₂) :
    ".screenshots" ++ "/" ++ id ++ "/" ++ natStr n₁ ++ " - " ++ d₁
      ++ ".png" ≠
    ".screenshots" ++ "/" ++ id ++ "/" ++ natStr n₂ ++ " - " ++ d₂
      ++ ".png" := by
  intro h
  apply hne
  have hd := congrArg String.data h
  simp only [String.data_append, List.append_assoc] at hd
  replace hd := List.append_cancel_left hd
  replace hd := List.append_cancel_left hd
  replace hd := List.append_cancel_left hd
  replace hd := List.append_cancel_left hd
  have hform : ∀ (z : List Char),
      (" - " : String).data ++ z = ' ' :: ('-' :: (' ' :: z)) :=
    fun z => rfl
  rw [hform, hform] at hd
  have hn := (append_space_inj (natStr n₁).data (natStr n₂).data _ _
    (mem_natChars_ne_space n₁) (mem_natChars_ne_space n₂) hd).1
  exact natChars_inj n₁ n₂ hn

theorem applyCall_id (c : ReportingTestCase) (call : RCall) :
    (applyCall c call).testCaseID = c.testCaseID := by
  cases call with
  | event ed w data ie ce => exact reportEvent_id c ed w data ie ce
  | step sd eb fb ts data ie ce => exact reportStep_id c sd eb fb ts data ie ce

theorem applyCall_numbered (c : ReportingTestCase) (call : RCall)
    (hinv : ∀ i (hi : i < c.steps.length) p,
      (c.steps[i]).imagePath = some p →
      ∃ desc, p = ".screenshots" ++ "/" ++ c.testCaseID ++ "/"
        ++ natStr (i + 1) ++ " - " ++ desc ++ ".png") :
    ∀ i (hi : i < (applyCall c call).steps.length) p,
      ((applyCall c call).steps[i]).imagePath = some p →
      ∃ desc, p = ".screenshots" ++ "/" ++ c.testCaseID ++ "/"
        ++ natStr (i + 1) ++ " - " ++ desc ++ ".png" := by
  have hshape : ∃ rec : StepRecord,
      (applyCall c call).steps = c.steps ++ [rec]
      ∧ (∀ p, rec.imagePath = some p →
          ∃ desc, p = c.screenshot desc) := by
    cases call with
    | event ed w data ie ce =>
      refine ⟨_, reportEvent_steps c ed w data ie ce, ?_⟩
      intro p hp
      simp only [StepRecord.imagePath] at hp
      cases ce with
      | false => simp at hp
      | true => exact ⟨ed, by simpa using hp.symm⟩
    | step sd eb fb ts data ie ce =>
      refine ⟨_, reportStep_steps c sd eb fb ts data ie ce, ?_⟩
      intro p hp
      simp only [StepRecord.imagePath] at hp
      cases ce with
      | false => simp at hp
      | true => exact ⟨sd, by simpa using hp.symm⟩
  obtain ⟨rec, hsteps, hrec⟩ := hshape
  intro i hi p hp
  simp only [hsteps] at hi hp
  by_cases hlt : i < c.steps.length
  · rw [List.getElem_append_left hlt] at hp
    exact hinv i hlt p hp
  · have hieq : i = c.steps.length := by
      have := hi
      rw [List.length_append, List.length_singleton] at this
      omega
    rw [List.getElem_concat_length c.steps rec i hieq] at hp
    obtain ⟨desc, hdesc⟩ := hrec p hp
    refine ⟨desc, ?_⟩
    rw [hdesc, ReportingTestCase.screenshot, hieq]

theorem runCalls_numbered (calls : List RCall) (c : ReportingTestCase)
    (hinv : ∀ i (hi : i < c.steps.length) p,
      (c.steps[i]).imagePath = some p →
      ∃ desc, p = ".screenshots" ++ "/" ++ c.testCaseID ++ "/"
        ++ natStr (i + 1) ++ " - " ++ desc ++ ".png") :
    ∀ i (hi : i < (runCalls c calls).steps.length) p,
      ((runCalls c calls).steps[i]).imagePath = some p →
      ∃ desc, p = ".screenshots" ++ "/" ++ c.testCaseID ++ "/"
        ++ natStr (i + 1) ++ " - " ++ desc ++ ".png" := by
  induction calls generalizing c with
  | nil => exact hinv
  | cons a rest ih =>
    have hr : runCalls c (a :: rest) = runCalls (applyCall c a) rest := rfl
    rw [hr]
    have hnext := applyCall_numbered c a hinv
    rw [← applyCall_id c a] at hnext
    have := ih (applyCall c a) hnext
    rw [applyCall_id c a] at this
    exact this

/-- C7: every screenshot path a `reportEvent`/`reportStep` capture
produces is stored under the per-case folder `.screenshots/<testCaseID>`,
and its file name starts with the running step counter (the would-be step
number of the step being recorded), so two captures in the same case never
yield the same path, even with equal descriptions: the recorded image
paths of a case's steps are pairwise distinct. -/
theorem screenshot_paths_unique :
    (∀ (c : ReportingTestCase) desc,
        (".screenshots" ++ "/" ++ c.testCaseID ++ "/").data <+:
          (c.screenshot desc).data)
    ∧ (∀ id d kw calls i j
         (hi : i <
           (runCalls (ReportingTestCase.init id d kw) calls).steps.length)
         (hj : j <
           (runCalls (ReportingTestCase.init id d kw) calls).steps.length),
         i ≠ j → ∀ pi pj,
         (((runCalls (ReportingTestCase.init id d kw)
             calls).steps[i]).imagePath = some pi) →
         (((runCalls (ReportingTestCase.init id d kw)
             calls).steps[j]).imagePath = some pj) →
         pi ≠ pj) := by
  constructor
  · intro c desc
    refine ⟨(natStr (c.steps.length + 1) ++ " - " ++ desc ++ ".png").data,
      ?_⟩
    simp [ReportingTestCase.screenshot, String.data_append,
      List.append_assoc]
  · intro id d kw calls i j hi hj hij pi pj hpi hpj
    have hbase : ∀ i
        (hi : i < (ReportingTestCase.init id d kw).steps.length) p,
        (((ReportingTestCase.init id d kw).steps[i]).imagePath = some p) →
        ∃ desc, p = ".screenshots" ++ "/"
          ++ (ReportingTestCase.init id d kw).testCaseID ++ "/"
          ++ natStr (i + 1) ++ " - " ++ desc ++ ".png" := by
      intro i hi
      rw [steps_init] at hi
      exact absurd hi (Nat.not_lt_zero i)
    have hnum := runCalls_numbered calls (ReportingTestCase.init id d kw)
      hbase
    obtain ⟨di, hdi⟩ := hnum i hi pi hpi
    obtain ⟨dj, hdj⟩ := hnum j hj pj hpj
    intro heq
    refine screenshotName_inj
      (ReportingTestCase.init id d kw).testCaseID
      (i + 1) (j + 1) di dj (by omega) ?_
    rw [← hdi, ← hdj]
    exact heq

/-- Witness for C7: applying the uniqueness theorem to a case that
captures two screenshots with the same description `a` shows the two
computed paths (counters 1 and 2) differ. -/
theorem screenshot_paths_unique_witness :
    ".screenshots" ++ "/" ++ "TC" ++ "/" ++ natStr 1 ++ " - " ++ "a"
      ++ ".png" ≠
    ".screenshots" ++ "/" ++ "TC" ++ "/" ++ natStr 2 ++ " - " ++ "a"
      ++ ".png" := by
  have hlen : (runCalls (ReportingTestCase.init "TC" "d" [])
      [RCall.event "a" false DataArg.noData false true,
       RCall.event "a" false DataArg.noData false true]).steps.length =
      2 := rfl
  have hi : 0 < (runCalls (ReportingTestCase.init "TC" "d" [])
      [RCall.event "a" false DataArg.noData false true,
       RCall.event "a" false DataArg.noData false true]).steps.length := by
    rw [hlen]
    omega
  have hj : 1 < (runCalls (ReportingTestCase.init "TC" "d" [])
      [RCall.event "a" false DataArg.noData false true,
       RCall.event "a" false DataArg.noData false true]).steps.length := by
    rw [hlen]
    omega
  have hp0 : (((runCalls (ReportingTestCase.init "TC" "d" [])
      [RCall.event "a" false DataArg.noData false true,
       RCall.event "a" false DataArg.noData false true]).steps[0]).imagePath
      = some (".screenshots" ++ "/" ++ "TC" ++ "/" ++ natStr 1 ++ " - "
        ++ "a" ++ ".png")) := rfl
  have hp1 : (((runCalls (ReportingTestCase.init "TC" "d" [])
      [RCall.event "a" false DataArg.noData false true,
       RCall.event "a" false DataArg.noData false true]).steps[1]).imagePath
      = some (".screenshots" ++ "/" ++ "TC" ++ "/" ++ natStr 2 ++ " - "
        ++ "a" ++ ".png")) := rfl
  exact screenshot_paths_unique.2 "TC" "d" []
    [RCall.event "a" false DataArg.noData false true,
     RCall.event "a" false DataArg.noData false true] 0 1 hi hj
    (by omega) _ _ hp0 hp1

theorem doc_not_under_root (outPath testName : String)
    (hslash : ∀ ch ∈ testName.data, ch ≠ '/') :
    isUnder (suiteScreenshotRoot outPath)
      (suiteDocPath outPath testName) = false := by
  by_contra h
  rw [Bool.not_eq_false, isUnder, List.isPrefixOf_iff_prefix] at h
  simp only [suiteScreenshotRoot, suiteDocPath, String.data_append,
    List.append_assoc] at h
  replace h := (List.prefix_append_right_inj _).mp h
  replace h := (List.prefix_append_right_inj _).mp h
  have hmem : '/' ∈ (".screenshots" : String).data
      ++ ("/" : String).data := by decide
  have hin := h.subset hmem
  rcases List.mem_append.mp hin with h' | h'
  · exact hslash '/' h' rfl
  · exact absurd h' (by decide)

/-- C8: with `zipReport=True`, the archive `writeReport` produces contains
exactly the files that existed under the suite's screenshot root at
archive time plus the rendered document — no duplicates, no omissions,
entry names being the relative paths themselves — and afterwards the
screenshot tree and the loose document are gone from the file system while
every other file survives.  The file system is a duplicate-free path list,
the document exists when archiving starts, and the test name contains no
path separator (so the document does not live inside the screenshot
tree). -/
theorem zip_archive_exact (fs : List String) (outPath testName : String)
    (hnd : fs.Nodup)
    (hdoc : suiteDocPath outPath testName ∈ fs)
    (hslash : ∀ ch ∈ testName.data, ch ≠ '/') :
    (zipEntries fs (suiteScreenshotRoot outPath)
      (suiteDocPath outPath testName)).Nodup
    ∧ (∀ p, p ∈ zipEntries fs (suiteScreenshotRoot outPath)
          (suiteDocPath outPath testName) ↔
        (p ∈ fs ∧ isUnder (suiteScreenshotRoot outPath) p = true)
          ∨ p = suiteDocPath outPath testName)
    ∧ (∀ p, p ∈ fsAfterZip fs (suiteScreenshotRoot outPath)
          (suiteDocPath outPath testName) ↔
        p ∈ fs ∧ isUnder (suiteScreenshotRoot outPath) p = false
          ∧ p ≠ suiteDocPath outPath testName) := by
  have hnu := doc_not_under_root outPath testName hslash
  refine ⟨?_, ?_, ?_⟩
  · rw [zipEntries, walkFiles, List.nodup_append]
    refine ⟨hnd.filter _, List.nodup_singleton _, ?_⟩
    intro p hp hpd
    rw [List.mem_singleton] at hpd
    subst hpd
    have hu := (List.mem_filter.mp hp).2
    rw [hnu] at hu
    exact absurd hu (by simp)
  · intro p
    constructor
    · intro hp
      rcases List.mem_append.mp hp with hp' | hp'
      · exact Or.inl ⟨(List.mem_filter.mp hp').1,
          (List.mem_filter.mp hp').2⟩
      · exact Or.inr (List.mem_singleton.mp hp')
    · intro hp
      rcases hp with ⟨hmem, hu⟩ | rfl
      · exact List.mem_append.mpr
          (Or.inl (List.mem_filter.mpr ⟨hmem, hu⟩))
      · exact List.mem_append.mpr (Or.inr (List.mem_singleton.mpr rfl))
  · intro p
    constructor
    · intro hp
      obtain ⟨hp', hpd⟩ := List.mem_filter.mp hp
      obtain ⟨hmem, hu⟩ := List.mem_filter.mp hp'
      refine ⟨hmem, ?_, ?_⟩
      · rcases hiu : isUnder (suiteScreenshotRoot outPath) p with _ | _
        · rfl
        · rw [hiu] at hu
          exact absurd hu (by simp)
      · intro hpe
        rw [hpe] at hpd
        simp at hpd
    · intro ⟨hmem, hu, hne⟩
      refine List.mem_filter.mpr ⟨List.mem_filter.mpr ⟨hmem, ?_⟩, ?_⟩
      · rw [hu]
        rfl
      · simp [hne]

/-- Witness for C8: a three-file system with one screenshot under the
suite root, the document, and an unrelated file. -/
theorem zip_archive_exact_witness :
    (zipEntries
      ["out/.screenshots/TC1/s.png", "out/report.html", "notes.txt"]
      (suiteScreenshotRoot "out") (suiteDocPath "out" "report")).Nodup :=
  (zip_archive_exact
    ["out/.screenshots/TC1/s.png", "out/report.html", "notes.txt"]
    "out" "report" (by decide) (by decide) (by decide)).1

theorem takeWhile_append_of_bad {p : Char → Bool} :
    ∀ (x t : List Char), (∃ c ∈ x, p c = false) →
      (x ++ t).takeWhile p = x.takeWhile p := by
  intro x t hx
  induction x with
  | nil =>
    obtain ⟨c, hc, _⟩ := hx
    exact absurd hc (List.not_mem_nil c)
  | cons a as ih =>
    by_cases ha : p a
    · simp only [List.cons_append, List.takeWhile_cons, ha, if_true]
      have hx' : ∃ c ∈ as, p c = false := by
        obtain ⟨c, hc, hpc⟩ := hx
        rcases List.mem_cons.mp hc with rfl | hc'
        · rw [ha] at hpc
          exact absurd hpc (by simp)
        · exact ⟨c, hc', hpc⟩
      rw [ih hx']
    · have ha' : p a = false := by
        rcases hpa : p a with _ | _
        · rfl
        · exact absurd hpa ha
      simp [List.cons_append, List.takeWhile_cons, ha']

theorem capture_not_under_root (outPath : String)
    (c : ReportingTestCase) (desc : String)
    (hslash : ∀ ch ∈ outPath.data, ch ≠ '/')
    (hss : outPath ≠ ".screenshots") :
    isUnder (suiteScreenshotRoot outPath) (c.screenshot desc) = false := by
  by_contra h
  rw [Bool.not_eq_false, isUnder, List.isPrefixOf_iff_prefix] at h
  obtain ⟨t, ht⟩ := h
  apply hss
  have hsd : ("/" : String).data = ['/'] := rfl
  simp only [ReportingTestCase.screenshot, suiteScreenshotRoot,
    String.data_append, List.append_assoc, hsd,
    List.singleton_append] at ht
  have hqout : ∀ ch ∈ outPath.data, (!(ch == '/')) = true := by
    intro ch hch
    simpa using hslash ch hch
  have h1 := congrArg (List.takeWhile (fun ch => !(ch == '/'))) ht
  rw [List.takeWhile_append_of_pos hqout] at h1
  simp [List.cons_append, List.takeWhile_cons] at h1
  apply String.toList_inj.mp
  show outPath.data = (".screenshots" : String).data
  rw [h1]

/-- C10: the archiving step only touches the suite-rooted tree
`<outPath>/.screenshots`, while `_screenshot` writes its files under
`./.screenshots/<testCaseID>` relative to the working directory; so when
`outPath` is not the current directory (here: a separator-free name other
than `.` and `.screenshots`, so the two path strings denote different
locations), a capture path is not under the suite's screenshot root, is
not among the archive entries, and survives the cleanup if it was in the
file system. -/
theorem capture_outside_suite_root (outPath testName : String)
    (c : ReportingTestCase) (desc : String) (fs : List String)
    (hslash : ∀ ch ∈ outPath.data, ch ≠ '/')
    (hdot : outPath ≠ ".")
    (hss : outPath ≠ ".screenshots") :
    isUnder (suiteScreenshotRoot outPath) (c.screenshot desc) = false
    ∧ c.screenshot desc ∉ zipEntries fs (suiteScreenshotRoot outPath)
        (suiteDocPath outPath testName)
    ∧ (c.screenshot desc ∈ fs → c.screenshot desc ∈
        fsAfterZip fs (suiteScreenshotRoot outPath)
          (suiteDocPath outPath testName)) := by
  have hnu := capture_not_under_root outPath c desc hslash hss
  have g1 : (".png" : String).data.getLast? = some 'g' := rfl
  have g2 : (".html" : String).data.getLast? = some 'l' := rfl
  have hne : c.screenshot desc ≠ suiteDocPath outPath testName := by
    intro h
    have hlast := congrArg (fun s : String => s.data.getLast?) h
    simp only [ReportingTestCase.screenshot, suiteDocPath,
      String.data_append, List.getLast?_append, g1, g2,
      Option.or_some] at hlast
    exact absurd hlast (by decide)
  refine ⟨hnu, ?_, ?_⟩
  · intro hmem
    rcases List.mem_append.mp hmem with hmem' | hmem'
    · have hu := (List.mem_filter.mp hmem').2
      rw [hnu] at hu
      exact absurd hu (by simp)
    · exact hne (List.mem_singleton.mp hmem')
  · intro hfs
    refine List.mem_filter.mpr ⟨List.mem_filter.mpr ⟨hfs, ?_⟩, ?_⟩
    · rw [hnu]
      rfl
    · simp [hne]

/-- Witness for C10: suite output directory `out`, case `TC`. -/
theorem capture_outside_suite_root_witness :
    isUnder (suiteScreenshotRoot "out")
      ((ReportingTestCase.init "TC" "d" []).screenshot "a") = false :=
  (capture_outside_suite_root "out" "r"
    (ReportingTestCase.init "TC" "d" []) "a" []
    (by decide) (by decide) (by decide)).1

end ReportingUnittest
